import Mathlib

/-!
Frontier publisher: the exploration tick of `explore.cpp`.

A shallow embedding of `src/explore/src/explore.cpp`.

* A `double` or `float` value is a rational number (`ℚ`). Every arithmetic
  operation of the source that can round (subtraction, multiplication, division,
  addition, conversion of an integer, narrowing of a `double` to a `float`) is
  followed by `roundDouble` or `roundFloat`: rounding to nearest, ties to even,
  at 53 or 24 significant bits; `sqrt` is `sqrtDouble`, the correctly rounded
  square root. `fabs` and the comparisons are exact.
  The exponent range is not bounded in the model, so infinities, NaN and
  overflow are outside it; inputs are arbitrary rationals, the doubles among
  them being the values `roundDouble` leaves unchanged.
* `size_t` counters are natural numbers; the narrowing conversion `int(id)` that
  fills the 32-bit marker id is modelled by `intOfSize` (two's complement wrap).
* The collaborators of a tick (frontier search, costmap resolution, frame id,
  clock) are the fields of `Env`: one value of `Env` is what one tick reads.
* Effects (publishing a marker array) are returned as an explicit list.
-/

namespace explore

/-! ## Data model -/

/-- A `geometry_msgs::Point`; the three fields are `double`. -/
structure Point where
  x : ℚ
  y : ℚ
  z : ℚ
deriving DecidableEq

/-- Modelled from the spec: the declaration of `frontier_exploration::Frontier`
(`explore/frontier_search.h`) is not part of the sources. The fields are the ones
the file reads (`centroid`, `cost`, `points`) and the size measure of the data
model. -/
structure Frontier where
  size : Nat
  cost : ℚ
  centroid : Point
  points : List Point
deriving DecidableEq

/-- A `std_msgs::ColorRGBA`; the four fields are `float`. -/
structure ColorRGBA where
  r : ℚ
  g : ℚ
  b : ℚ
  a : ℚ
deriving DecidableEq

/-- The values of `visualization_msgs::Marker::action` the file uses. -/
inductive MarkerAction where
  | ADD
  | DELETE
deriving DecidableEq

/-- The values of `visualization_msgs::Marker::type` the file meets: the default
of a fresh message (`ARROW`, 0) and `POINTS`. -/
inductive MarkerType where
  | ARROW
  | POINTS
deriving DecidableEq

/-- A `visualization_msgs::Marker` with the fields `visualizeFrontiers` writes. -/
structure Marker where
  frame_id : String
  stamp : Nat
  ns : String
  id : Int
  type : MarkerType
  action : MarkerAction
  pose_position : Point
  scale : Point
  color : ColorRGBA
  lifetime : Nat
  frame_locked : Bool
  points : List Point
deriving DecidableEq

/-- Modelled from the spec: the class declaration (`explore/explore.h`) is not
part of the sources. The fields are the data members the constructor and the
member functions name, and `prev_goal_`, the goal state of the data model
("GoalState: the currently pursued target Position (optional)"). -/
structure Explore where
  planner_frequency_ : ℚ
  progress_timeout_ : ℚ
  visualize_ : Bool
  potential_scale_ : ℚ
  orientation_scale_ : ℚ
  gain_scale_ : ℚ
  frontier_blacklist_ : List Point
  prev_goal_ : Option Point
  prev_distance_ : ℚ
  last_markers_count_ : Nat
deriving DecidableEq

/-- What one tick obtains from its collaborators: the cost-sorted result of
`search_.searchFrom(pose.position)`, `costmap2d->getResolution()`,
`costmap_client_.getGlobalFrameID()` and `ros::Time::now()`. -/
structure Env where
  frontiers : List Frontier
  resolution : ℚ
  frame_id : String
  now : Nat

/-- Modelled from the spec: the outward calls of a tick. `sendGoal` is the goal
executor's `sendGoal(Position)` of the external interfaces; no such call occurs
in the sources, so no function below produces it. `publish` is the call
`marker_array_publisher_.publish` of the sources. -/
inductive Effect where
  | publish (markers : List Marker)
  | sendGoal (target : Point)
deriving DecidableEq

/-- The parameters the constructor reads from the parameter server. -/
structure Params where
  planner_frequency : ℚ
  progress_timeout : ℚ
  visualize : Bool
  potential_scale : ℚ
  orientation_scale : ℚ
  gain_scale : ℚ
  min_frontier_size : ℚ

/-! ## Floating-point rounding -/

/-- Rounding of a rational to the nearest integer, ties to the even one. -/
def roundHalfEven (t : ℚ) : Int :=
  let f := ⌊t⌋
  if t - f < 1 / 2 then f
  else if 1 / 2 < t - f then f + 1
  else if f % 2 = 0 then f else f + 1

/-- Rounding to nearest, ties to even, in binary floating point with `p`
significant bits: for `2 ^ e ≤ |x| < 2 ^ (e + 1)` the result is the multiple of
`2 ^ (e + 1 - p)` nearest to `x`. -/
def roundTo (p : Nat) (x : ℚ) : ℚ :=
  if x = 0 then 0
  else
    let e : Int := Int.log 2 |x|
    let ulp : ℚ := (2 : ℚ) ^ (e + 1 - (p : Int))
    (roundHalfEven (x / ulp) : ℚ) * ulp

/-- The rounding of a `double` operation (53 significant bits). -/
def roundDouble (x : ℚ) : ℚ := roundTo 53 x

/-- The narrowing to `float` (24 significant bits). -/
def roundFloat (x : ℚ) : ℚ := roundTo 24 x

/-- The `double` nearest to the square root of `x` (ties to even): with
`4 ^ e ≤ x < 4 ^ (e + 1)` the root lies between `2 ^ e` and `2 ^ (e + 1)`, and
`s` is the integer part of the root measured in units of `2 ^ (e + 1 - 53)`. -/
def sqrtDouble (x : ℚ) : ℚ :=
  if x ≤ 0 then 0
  else
    let e : Int := Int.log 4 x
    let ulp : ℚ := (2 : ℚ) ^ (e + 1 - 53)
    let y : ℚ := x / (ulp * ulp)
    let s : Nat := Nat.sqrt ⌊y⌋₊
    if y < ((s : ℚ) + 1 / 2) ^ 2 then s * ulp
    else if ((s : ℚ) + 1 / 2) ^ 2 < y then (s + 1) * ulp
    else if s % 2 = 0 then s * ulp else (s + 1) * ulp

/-! ## Operations -/

/-- The file-level `operator==` on points: `sqrt(dx*dx + dy*dy) < 0.01`, every
operation rounded to `double`; the literal `0.01` is the nearest `double`. -/
def pointEq (one two : Point) : Bool :=
  let dx := roundDouble (one.x - two.x)
  let dy := roundDouble (one.y - two.y)
  let dist := sqrtDouble (roundDouble (roundDouble (dx * dx) + roundDouble (dy * dy)))
  decide (dist < roundDouble (1 / 100))

/-- The conversion `int(id)` of a `size_t`: reduction modulo `2^32` into the
range of a 32-bit signed integer. -/
def intOfSize (id : Nat) : Int :=
  (((id + 2 ^ 31) % 2 ^ 32 : Nat) : Int) - 2 ^ 31

/-- The constant `tolerace` of `goalOnBlacklist` (spelling of the source). -/
def tolerace : Nat := 5

/-- The member function `Explore::goalOnBlacklist`: scan of
`frontier_blacklist_` with early return; the resolution is what
`costmap2d->getResolution()` gives. The two differences and the product
`tolerace * resolution` (with `tolerace` converted to `double`) are rounded. -/
def goalOnBlacklist (resolution : ℚ) : List Point → Point → Bool
  | [], _ => false
  | frontier_goal :: rest, goal =>
    let x_diff := |roundDouble (goal.x - frontier_goal.x)|
    let y_diff := |roundDouble (goal.y - frontier_goal.y)|
    if x_diff < roundDouble (roundDouble (tolerace : ℚ) * resolution) ∧
        y_diff < roundDouble (roundDouble (tolerace : ℚ) * resolution) then
      true
    else
      goalOnBlacklist resolution rest goal

/-- The colour `red` of `visualizeFrontiers`. -/
def red : ColorRGBA := { r := 1, g := 0, b := 0, a := 1 }

/-- The initial value of `my_color` in `visualizeFrontiers`. -/
def my_color0 : ColorRGBA := { r := 0, g := 0, b := 1, a := 1 }

/-- The marker `m` of `visualizeFrontiers` before the first loop. -/
def marker0 (env : Env) : Marker :=
  { frame_id := env.frame_id
    stamp := env.now
    ns := "frontiers"
    id := 0
    type := MarkerType.ARROW
    action := MarkerAction.ADD
    pose_position := ⟨0, 0, 0⟩
    scale := ⟨1, 1, 1⟩
    color := { r := 0, g := 0, b := 255, a := 255 }
    lifetime := 0
    frame_locked := true
    points := [] }

/-- The variables the first loop of `visualizeFrontiers` updates. -/
structure VisLoop where
  m : Marker
  my_color : ColorRGBA
  markers : List Marker
  id : Nat
  frontier_id : ℚ

/-- One iteration of `for (auto& frontier : frontiers)`; `size` is
`frontiers.size()`. The quotient `frontier_id/(frontiers.size()+1)` and the
difference from 1 are `double` operations whose results are narrowed to the
`float` fields of `my_color`; `++frontier_id` is a `double` addition; the
literal `0.1` is the nearest `double`. -/
def addStep (resolution : ℚ) (blacklist : List Point) (size : Nat)
    (st : VisLoop) (frontier : Frontier) : VisLoop :=
  let m : Marker :=
    { st.m with
      type := MarkerType.POINTS
      id := intOfSize st.id
      pose_position := ⟨0, 0, 0⟩
      scale := ⟨roundDouble (1 / 10), roundDouble (1 / 10), roundDouble (1 / 10)⟩
      points := frontier.points }
  if goalOnBlacklist resolution blacklist frontier.centroid then
    let m : Marker := { m with color := red }
    { m := m, my_color := st.my_color, markers := st.markers ++ [m],
      id := st.id + 1, frontier_id := roundDouble (st.frontier_id + 1) }
  else
    let my_color : ColorRGBA :=
      { st.my_color with
        r := roundFloat
          (roundDouble (st.frontier_id / roundDouble ((size + 1 : Nat) : ℚ)))
        g := roundFloat
          (roundDouble (1 - roundDouble (st.frontier_id / roundDouble ((size + 1 : Nat) : ℚ)))) }
    let m : Marker := { m with color := my_color }
    { m := m, my_color := my_color, markers := st.markers ++ [m],
      id := st.id + 1, frontier_id := roundDouble (st.frontier_id + 1) }

/-- The loop `for (; id < last_markers_count_; ++id)` of `visualizeFrontiers`. -/
def deleteLoop (m : Marker) (last_markers_count : Nat) (id : Nat)
    (markers : List Marker) : List Marker :=
  if id < last_markers_count then
    deleteLoop m last_markers_count (id + 1) (markers ++ [{ m with id := intOfSize id }])
  else
    markers
termination_by last_markers_count - id

/-- The member function `Explore::visualizeFrontiers`: the new state and the
published array. The local `min_cost` is computed and never read, and the debug
log line has no effect on the state; both are left out. -/
def visualizeFrontiers (env : Env) (s : Explore) (frontiers : List Frontier) :
    Explore × List Marker :=
  let st0 : VisLoop :=
    { m := marker0 env, my_color := my_color0, markers := [], id := 0, frontier_id := 0 }
  let st := frontiers.foldl
    (addStep env.resolution s.frontier_blacklist_ frontiers.length) st0
  let current_markers_count := st.markers.length
  let m : Marker := { st.m with action := MarkerAction.DELETE }
  let markers := deleteLoop m s.last_markers_count_ st.id st.markers
  ({ s with last_markers_count_ := current_markers_count }, markers)

/-- What a call of `get_frontiers` leaves behind: the state, the outward calls
made, and the local `target_position` (`none` on the early return). -/
structure Tick where
  state : Explore
  effects : List Effect
  target_position : Option Point

/-- The member function `Explore::get_frontiers`, the timer callback. The two
log lines are left out. -/
def get_frontiers (env : Env) (s : Explore) : Tick :=
  let frontiers := env.frontiers
  let vis : Explore × List Effect :=
    if s.visualize_ then
      let r := visualizeFrontiers env s frontiers
      (r.1, [Effect.publish r.2])
    else
      (s, [])
  let frontier := frontiers.find?
    (fun f => !goalOnBlacklist env.resolution vis.1.frontier_blacklist_ f.centroid)
  match frontier with
  | none => { state := vis.1, effects := vis.2, target_position := none }
  | some f => { state := vis.1, effects := vis.2, target_position := some f.centroid }

/-- The constructor `Explore::Explore`: the state after construction.
`frontier_blacklist_` is default-constructed, hence empty; no goal is set. -/
def Explore.construct (p : Params) : Explore :=
  { planner_frequency_ := p.planner_frequency
    progress_timeout_ := p.progress_timeout
    visualize_ := p.visualize
    potential_scale_ := p.potential_scale
    orientation_scale_ := p.orientation_scale
    gain_scale_ := p.gain_scale
    frontier_blacklist_ := []
    prev_goal_ := none
    prev_distance_ := 0
    last_markers_count_ := 0 }

/-- The state after the timer has fired once for each element of `envs`. -/
def runTicks (s : Explore) (envs : List Env) : Explore :=
  envs.foldl (fun st env => (get_frontiers env st).state) s

/-- All effects of the ticks `envs` run from `s`, in order. -/
def tickEffects : Explore → List Env → List Effect
  | _, [] => []
  | s, env :: envs =>
    (get_frontiers env s).effects ++ tickEffects (get_frontiers env s).state envs

/-! ## The scenario of the testable properties -/

/-- The frontier list of the scenarios: (5,5) with cost 1, then (10,10) with
cost 2. -/
def scenarioFrontiers : List Frontier :=
  [⟨1, 1, ⟨5, 5, 0⟩, [⟨5, 5, 0⟩]⟩, ⟨1, 2, ⟨10, 10, 0⟩, [⟨10, 10, 0⟩]⟩]

/-- A tick that finds the scenario frontiers on a map of the given resolution. -/
def scenarioEnv (resolution : ℚ) : Env :=
  { frontiers := scenarioFrontiers, resolution := resolution, frame_id := "map", now := 0 }

/-- A state with default parameters and the given blacklist, goal, marker count
and visualisation switch. -/
def scenarioState (blacklist : List Point) (goal : Option Point) (count : Nat)
    (visualize : Bool) : Explore :=
  { planner_frequency_ := 1, progress_timeout_ := 30, visualize_ := visualize,
    potential_scale_ := 1 / 1000, orientation_scale_ := 0, gain_scale_ := 1,
    frontier_blacklist_ := blacklist, prev_goal_ := goal, prev_distance_ := 0,
    last_markers_count_ := count }

/-- The test `goalOnBlacklist` as the member function it is: the answer
together with the object after the call (the body assigns to no member). -/
def Explore.goalOnBlacklist (env : Env) (s : Explore) (goal : Point) : Explore × Bool :=
  (s, explore.goalOnBlacklist env.resolution s.frontier_blacklist_ goal)

/-! ## Closed forms of the two loops of `visualizeFrontiers` -/

/-- The marker pushed for the frontier `f` when the loop counters are `id` and
`frontier_id`, on top of a marker `m` and a colour with components `b`, `a`. -/
def addMarker (resolution : ℚ) (blacklist : List Point) (size : Nat) (m : Marker)
    (b a : ℚ) (id : Nat) (frontier_id : ℚ) (f : Frontier) : Marker :=
  { m with
    type := MarkerType.POINTS
    id := intOfSize id
    pose_position := ⟨0, 0, 0⟩
    scale := ⟨roundDouble (1 / 10), roundDouble (1 / 10), roundDouble (1 / 10)⟩
    points := f.points
    color :=
      if goalOnBlacklist resolution blacklist f.centroid then red
      else
        { r := roundFloat (roundDouble (frontier_id / roundDouble ((size + 1 : Nat) : ℚ)))
          g := roundFloat
            (roundDouble (1 - roundDouble (frontier_id / roundDouble ((size + 1 : Nat) : ℚ))))
          b := b
          a := a } }

/-- The markers the first loop pushes for the frontiers `fs`, counters starting
at `id` and `frontier_id`. -/
def addMarkers (resolution : ℚ) (blacklist : List Point) (size : Nat) (m : Marker)
    (b a : ℚ) : Nat → ℚ → List Frontier → List Marker
  | _, _, [] => []
  | id, frontier_id, f :: fs =>
    addMarker resolution blacklist size m b a id frontier_id f ::
      addMarkers resolution blacklist size m b a (id + 1) (roundDouble (frontier_id + 1)) fs

/-! ## Rounding -/

lemma roundHalfEven_of_near (t : ℚ) (n : ℤ) (h : |t - n| < 1 / 2) : roundHalfEven t = n := by
  rw [abs_lt] at h
  obtain ⟨h1, h2⟩ := h
  unfold roundHalfEven
  rcases le_or_lt (n : ℚ) t with hle | hlt
  · have hf : ⌊t⌋ = n := by
      rw [Int.floor_eq_iff]
      constructor <;> linarith
    simp only [hf]
    rw [if_pos (by linarith)]
  · have hf : ⌊t⌋ = n - 1 := by
      rw [Int.floor_eq_iff]
      push_cast
      constructor <;> linarith
    simp only [hf]
    push_cast
    rw [if_neg (by linarith), if_pos (by linarith)]
    ring

lemma roundHalfEven_intCast (n : ℤ) : roundHalfEven (n : ℚ) = n :=
  roundHalfEven_of_near _ n (by simp)

lemma roundHalfEven_tie (n : ℤ) :
    roundHalfEven ((n : ℚ) + 1 / 2) = if n % 2 = 0 then n else n + 1 := by
  have hf : ⌊(n : ℚ) + 1 / 2⌋ = n := by
    rw [Int.floor_eq_iff]
    constructor <;> linarith
  unfold roundHalfEven
  simp only [hf]
  rw [if_neg (by linarith), if_neg (by linarith)]

lemma floor_le_roundHalfEven (t : ℚ) : ⌊t⌋ ≤ roundHalfEven t := by
  unfold roundHalfEven
  simp only
  split_ifs <;> omega

lemma roundHalfEven_le_of_le (t : ℚ) (N : ℤ) (h : t ≤ N) : roundHalfEven t ≤ N := by
  have hfl : ⌊t⌋ ≤ N := by
    have h1 : ((⌊t⌋ : ℤ) : ℚ) ≤ (N : ℚ) := le_trans (Int.floor_le t) h
    exact_mod_cast h1
  rcases eq_or_lt_of_le hfl with heq | hlt
  · have ht : t = N := le_antisymm h (by rw [← heq]; exact Int.floor_le t)
    rw [ht, roundHalfEven_intCast]
  · unfold roundHalfEven
    simp only
    split_ifs <;> omega

lemma log_two_eq (r : ℚ) (e : ℤ) (h1 : (2 : ℚ) ^ e ≤ r) (h2 : r < (2 : ℚ) ^ (e + 1)) :
    Int.log 2 r = e := by
  have hr : 0 < r := lt_of_lt_of_le (zpow_pos (by norm_num) e) h1
  have hb : 1 < 2 := by norm_num
  have ha : e ≤ Int.log 2 r := (Int.zpow_le_iff_le_log hb hr).mp (by exact_mod_cast h1)
  have hc : Int.log 2 r < e + 1 := (Int.lt_zpow_iff_log_lt hb hr).mp (by exact_mod_cast h2)
  omega

lemma ulp_pos (e : ℤ) : (0 : ℚ) < (2 : ℚ) ^ e := zpow_pos (by norm_num) e

/-- Evaluation away from a tie. -/
lemma roundTo_eq_of_near (p : Nat) (x : ℚ) (e n : ℤ) (h1 : (2 : ℚ) ^ e ≤ |x|)
    (h2 : |x| < (2 : ℚ) ^ (e + 1)) (hn : |x / (2 : ℚ) ^ (e + 1 - (p : ℤ)) - n| < 1 / 2) :
    roundTo p x = n * (2 : ℚ) ^ (e + 1 - (p : ℤ)) := by
  have hx : x ≠ 0 := by
    intro h0
    rw [h0, abs_zero] at h1
    exact absurd h1 (not_le.mpr (ulp_pos e))
  unfold roundTo
  rw [if_neg hx]
  simp only [log_two_eq |x| e h1 h2, roundHalfEven_of_near _ n hn]

/-- Evaluation at a tie. -/
lemma roundTo_eq_of_tie (p : Nat) (x : ℚ) (e n : ℤ) (h1 : (2 : ℚ) ^ e ≤ |x|)
    (h2 : |x| < (2 : ℚ) ^ (e + 1)) (hn : x / (2 : ℚ) ^ (e + 1 - (p : ℤ)) = n + 1 / 2) :
    roundTo p x = ((if n % 2 = 0 then n else n + 1 : ℤ) : ℚ) * (2 : ℚ) ^ (e + 1 - (p : ℤ)) := by
  have hx : x ≠ 0 := by
    intro h0
    rw [h0, abs_zero] at h1
    exact absurd h1 (not_le.mpr (ulp_pos e))
  unfold roundTo
  rw [if_neg hx]
  simp only [log_two_eq |x| e h1 h2, hn, roundHalfEven_tie]

lemma roundTo_zero (p : Nat) : roundTo p 0 = 0 := by
  unfold roundTo
  rw [if_pos rfl]

lemma zpow_log_le_abs (x : ℚ) (hx : x ≠ 0) : (2 : ℚ) ^ Int.log 2 |x| ≤ |x| := by
  have := Int.zpow_log_le_self (b := 2) (r := |x|) (by norm_num) (abs_pos.mpr hx)
  exact_mod_cast this

lemma roundTo_pos (p : Nat) (hp : 1 ≤ p) (x : ℚ) (hx : 0 < x) : 0 < roundTo p x := by
  have hne : x ≠ 0 := ne_of_gt hx
  have hu := ulp_pos (Int.log 2 |x| + 1 - (p : ℤ))
  have hlog := zpow_log_le_abs x hne
  rw [abs_of_pos hx] at hlog hu
  have hmono : (2 : ℚ) ^ (Int.log 2 x + 1 - (p : ℤ)) ≤ (2 : ℚ) ^ Int.log 2 x :=
    zpow_le_zpow_right₀ (by norm_num) (by omega)
  have hone : (1 : ℚ) ≤ x / (2 : ℚ) ^ (Int.log 2 x + 1 - (p : ℤ)) := by
    rw [le_div_iff₀ hu, one_mul]
    exact le_trans hmono hlog
  have hfl : 0 < ⌊x / (2 : ℚ) ^ (Int.log 2 x + 1 - (p : ℤ))⌋ := Int.floor_pos.mpr hone
  have hr := floor_le_roundHalfEven (x / (2 : ℚ) ^ (Int.log 2 x + 1 - (p : ℤ)))
  unfold roundTo
  rw [if_neg hne, abs_of_pos hx]
  apply mul_pos _ hu
  exact_mod_cast lt_of_lt_of_le hfl hr

lemma roundTo_le_of_quot_le (p : Nat) (x : ℚ) (hx : x ≠ 0) (N : ℤ)
    (h : x / (2 : ℚ) ^ (Int.log 2 |x| + 1 - (p : ℤ)) ≤ N) :
    roundTo p x ≤ N * (2 : ℚ) ^ (Int.log 2 |x| + 1 - (p : ℤ)) := by
  unfold roundTo
  rw [if_neg hx]
  apply mul_le_mul_of_nonneg_right _ (le_of_lt (ulp_pos _))
  exact_mod_cast roundHalfEven_le_of_le _ N h

lemma roundTo_nonpos (p : Nat) (x : ℚ) (hx : x ≤ 0) : roundTo p x ≤ 0 := by
  rcases eq_or_lt_of_le hx with h0 | hlt
  · rw [h0, roundTo_zero]
  · have h := roundTo_le_of_quot_le p x (ne_of_lt hlt) 0
      (by
        rw [Int.cast_zero]
        exact le_of_lt (div_neg_of_neg_of_pos hlt (ulp_pos _)))
    simpa using h

lemma roundTo_of_quot_int (p : Nat) (x : ℚ) (hx : x ≠ 0) (N : ℤ)
    (h : x / (2 : ℚ) ^ (Int.log 2 |x| + 1 - (p : ℤ)) = N) : roundTo p x = x := by
  unfold roundTo
  rw [if_neg hx]
  simp only [h, roundHalfEven_intCast]
  rw [← h, div_mul_cancel₀ _ (ne_of_gt (ulp_pos _))]

/-- The unit in the last place of a nonzero `x` below `2 ^ 53` in size divides
every integer. -/
lemma quot_intCast (x : ℚ) (hx : x ≠ 0) (hlt : |x| < (2 : ℚ) ^ (53 : ℤ)) (k : ℤ) :
    ∃ N : ℤ, (k : ℚ) / (2 : ℚ) ^ (Int.log 2 |x| + 1 - ((53 : ℕ) : ℤ)) = N := by
  have hL : Int.log 2 |x| < 53 :=
    (Int.lt_zpow_iff_log_lt (by norm_num) (abs_pos.mpr hx)).mp (by exact_mod_cast hlt)
  obtain ⟨d, hd⟩ : ∃ d : ℕ, Int.log 2 |x| + 1 - ((53 : ℕ) : ℤ) = -(d : ℤ) :=
    ⟨(52 - Int.log 2 |x|).toNat, by push_cast; omega⟩
  refine ⟨k * 2 ^ d, ?_⟩
  rw [hd, zpow_neg, zpow_natCast, div_inv_eq_mul]
  push_cast
  ring

lemma roundDouble_le_natCast (x : ℚ) (k : ℕ) (hk : k < 2 ^ 53) (h : x ≤ k) :
    roundDouble x ≤ k := by
  unfold roundDouble
  rcases le_or_lt x 0 with h0 | hpos
  · exact le_trans (roundTo_nonpos 53 x h0) (by positivity)
  · have hlt : x < (2 : ℚ) ^ (53 : ℤ) := by
      have : (k : ℚ) < (2 : ℚ) ^ (53 : ℤ) := by exact_mod_cast hk
      linarith
    obtain ⟨N, hN⟩ := quot_intCast x (ne_of_gt hpos) (by rw [abs_of_pos hpos]; exact hlt) k
    rw [Int.cast_natCast] at hN
    have hu := ulp_pos (Int.log 2 |x| + 1 - ((53 : ℕ) : ℤ))
    have hq : x / (2 : ℚ) ^ (Int.log 2 |x| + 1 - ((53 : ℕ) : ℤ)) ≤ N := by
      rw [← hN]
      exact div_le_div_of_nonneg_right h (le_of_lt hu)
    have := roundTo_le_of_quot_le 53 x (ne_of_gt hpos) N hq
    rw [← hN, div_mul_cancel₀ _ (ne_of_gt hu)] at this
    exact this

lemma roundDouble_natCast (k : ℕ) (hk : k ≤ 2 ^ 53) : roundDouble (k : ℚ) = k := by
  unfold roundDouble
  rcases Nat.eq_zero_or_pos k with h0 | hpos
  · rw [h0, Nat.cast_zero, roundTo_zero]
  · have hx : (0 : ℚ) < k := by exact_mod_cast hpos
    rcases eq_or_lt_of_le hk with heq | hlt
    · rw [heq]
      have := roundTo_eq_of_near 53 ((2 ^ 53 : ℕ) : ℚ) 53 (2 ^ 52)
        (by norm_num) (by norm_num) (by norm_num)
      rw [this]
      norm_num
    · have hlt' : (k : ℚ) < (2 : ℚ) ^ (53 : ℤ) := by exact_mod_cast hlt
      obtain ⟨N, hN⟩ := quot_intCast (k : ℚ) (ne_of_gt hx)
        (by rw [abs_of_pos hx]; exact hlt') k
      rw [Int.cast_natCast] at hN
      exact roundTo_of_quot_int 53 _ (ne_of_gt hx) N hN

lemma roundDouble_intCast (z : ℤ) (hz : |z| < 2 ^ 53) : roundDouble (z : ℚ) = z := by
  unfold roundDouble
  rcases eq_or_ne z 0 with h0 | hne
  · rw [h0, Int.cast_zero, roundTo_zero]
  · have hx : (z : ℚ) ≠ 0 := by exact_mod_cast hne
    have hlt : |(z : ℚ)| < (2 : ℚ) ^ (53 : ℤ) := by exact_mod_cast hz
    obtain ⟨N, hN⟩ := quot_intCast (z : ℚ) hx hlt z
    exact roundTo_of_quot_int 53 _ hx N hN

lemma roundDouble_zero : roundDouble 0 = 0 := roundTo_zero 53

lemma roundDouble_ofNat (n : ℕ) [n.AtLeastTwo] (h : n ≤ 2 ^ 53) :
    roundDouble (OfNat.ofNat n) = OfNat.ofNat n := by
  have := roundDouble_natCast n h
  simpa using this

lemma roundDouble_one : roundDouble 1 = 1 := by
  have := roundDouble_natCast 1 (by norm_num)
  simpa using this

lemma roundDouble_two : roundDouble 2 = 2 := roundDouble_ofNat 2 (by norm_num)

lemma roundDouble_five : roundDouble 5 = 5 := roundDouble_ofNat 5 (by norm_num)

lemma roundDouble_ten : roundDouble 10 = 10 := roundDouble_ofNat 10 (by norm_num)

lemma roundDouble_tolerace : roundDouble (tolerace : ℚ) = 5 := by
  have := roundDouble_natCast 5 (by norm_num)
  simpa [tolerace] using this

lemma log_four_eq (r : ℚ) (e : ℤ) (h1 : (4 : ℚ) ^ e ≤ r) (h2 : r < (4 : ℚ) ^ (e + 1)) :
    Int.log 4 r = e := by
  have hr : 0 < r := lt_of_lt_of_le (zpow_pos (by norm_num) e) h1
  have hb : 1 < 4 := by norm_num
  have ha : e ≤ Int.log 4 r := (Int.zpow_le_iff_le_log hb hr).mp (by exact_mod_cast h1)
  have hc : Int.log 4 r < e + 1 := (Int.lt_zpow_iff_log_lt hb hr).mp (by exact_mod_cast h2)
  omega

/-- The value of `sqrt(50.0)`. -/
lemma sqrtDouble_fifty : sqrtDouble 50 = 7961314590657216 / 2 ^ 50 := by
  have hlog : Int.log 4 (50 : ℚ) = 2 := log_four_eq 50 2 (by norm_num) (by norm_num)
  have hy : (50 : ℚ) / ((2 : ℚ) ^ ((2 : ℤ) + 1 - 53) * (2 : ℚ) ^ ((2 : ℤ) + 1 - 53))
      = ((63382530011411470074835160268800 : ℕ) : ℚ) := by norm_num
  have hs : Nat.sqrt 63382530011411470074835160268800 = 7961314590657215 := by norm_num
  unfold sqrtDouble
  rw [if_neg (by norm_num)]
  simp only [hlog, hy, Nat.floor_natCast, hs]
  norm_num

/-- The points (5,5) and (0,0) are not equal for `operator==`. -/
lemma pointEq_far : pointEq ⟨5, 5, 0⟩ ⟨0, 0, 0⟩ = false := by
  have hc : roundDouble (1 / 100) = 5764607523034235 / 2 ^ 59 := by
    have h := roundTo_eq_of_near 53 (1 / 100) (-7) 5764607523034235
      (by norm_num [abs_of_pos]) (by norm_num [abs_of_pos]) (by norm_num [abs_lt])
    unfold roundDouble
    rw [h]
    norm_num
  have h25 : roundDouble 25 = 25 := roundDouble_ofNat 25 (by norm_num)
  have h50 : roundDouble 50 = 50 := roundDouble_ofNat 50 (by norm_num)
  unfold pointEq
  norm_num [roundDouble_five, h25, h50, sqrtDouble_fifty, hc]

/-! ## The blacklist test -/

/-- The scan answers `true` exactly when some stored entry passes the two
comparisons of the loop body. -/
lemma goalOnBlacklist_eq_true_iff (resolution : ℚ) (blacklist : List Point) (goal : Point) :
    goalOnBlacklist resolution blacklist goal = true ↔
      ∃ P ∈ blacklist, |roundDouble (goal.x - P.x)| < roundDouble (5 * resolution) ∧
        |roundDouble (goal.y - P.y)| < roundDouble (5 * resolution) := by
  induction blacklist with
  | nil => simp [goalOnBlacklist]
  | cons P rest ih =>
    simp only [goalOnBlacklist, roundDouble_tolerace, List.mem_cons, exists_eq_or_imp]
    by_cases h : |roundDouble (goal.x - P.x)| < roundDouble (5 * resolution) ∧
        |roundDouble (goal.y - P.y)| < roundDouble (5 * resolution)
    · simp [h]
    · simp [h, ih]

lemma goalOnBlacklist_nil (resolution : ℚ) (goal : Point) :
    goalOnBlacklist resolution [] goal = false := rfl

lemma goalOnBlacklist_append_left (resolution : ℚ) (L L' : List Point) (goal : Point)
    (h : goalOnBlacklist resolution L goal = true) :
    goalOnBlacklist resolution (L ++ L') goal = true := by
  rw [goalOnBlacklist_eq_true_iff] at h ⊢
  obtain ⟨P, hP, hx, hy⟩ := h
  exact ⟨P, List.mem_append_left L' hP, hx, hy⟩

/-! ## The tick -/

lemma visualizeFrontiers_state (env : Env) (s : Explore) (frontiers : List Frontier) :
    ∃ count, (visualizeFrontiers env s frontiers).1 = { s with last_markers_count_ := count } :=
  ⟨_, rfl⟩

/-- The three components of a tick, each in closed form. -/
lemma get_frontiers_eq (env : Env) (s : Explore) :
    get_frontiers env s =
      { state := if s.visualize_ then (visualizeFrontiers env s env.frontiers).1 else s
        effects :=
          if s.visualize_ then [Effect.publish (visualizeFrontiers env s env.frontiers).2] else []
        target_position :=
          (env.frontiers.find?
            (fun f => !goalOnBlacklist env.resolution s.frontier_blacklist_ f.centroid)).map
            Frontier.centroid } := by
  have hb : (visualizeFrontiers env s env.frontiers).1.frontier_blacklist_
      = s.frontier_blacklist_ := rfl
  unfold get_frontiers
  cases hv : s.visualize_
  · simp only [Bool.false_eq_true, if_false]
    cases hf : env.frontiers.find?
      (fun f => !goalOnBlacklist env.resolution s.frontier_blacklist_ f.centroid) <;> rfl
  · simp only [if_true, hb]
    cases hf : env.frontiers.find?
      (fun f => !goalOnBlacklist env.resolution s.frontier_blacklist_ f.centroid) <;> rfl

lemma get_frontiers_state (env : Env) (s : Explore) :
    ∃ count, (get_frontiers env s).state = { s with last_markers_count_ := count } := by
  rw [get_frontiers_eq]
  show ∃ count, (if s.visualize_ = true then (visualizeFrontiers env s env.frontiers).1 else s)
    = { s with last_markers_count_ := count }
  by_cases hv : s.visualize_ = true
  · obtain ⟨c, hc⟩ := visualizeFrontiers_state env s env.frontiers
    exact ⟨c, by rw [if_pos hv]; exact hc⟩
  · exact ⟨s.last_markers_count_, by rw [if_neg hv]⟩

lemma get_frontiers_blacklist (env : Env) (s : Explore) :
    (get_frontiers env s).state.frontier_blacklist_ = s.frontier_blacklist_ := by
  obtain ⟨c, hc⟩ := get_frontiers_state env s
  rw [hc]

/-- The local `target_position` is the centroid of the first frontier the
blacklist test rejects, if any. -/
lemma get_frontiers_target (env : Env) (s : Explore) :
    (get_frontiers env s).target_position =
      (env.frontiers.find?
        (fun f => !goalOnBlacklist env.resolution s.frontier_blacklist_ f.centroid)).map
        Frontier.centroid := by
  rw [get_frontiers_eq]

lemma visualizeFrontiers_blacklist (env : Env) (s : Explore) (frontiers : List Frontier) :
    (visualizeFrontiers env s frontiers).1.frontier_blacklist_ = s.frontier_blacklist_ := rfl

/-- A stored entry is always within its own tolerance square when the
resolution is positive. -/
lemma goalOnBlacklist_self (resolution : ℚ) (hpos : 0 < resolution) (P : Point)
    (blacklist : List Point) (hP : P ∈ blacklist) :
    goalOnBlacklist resolution blacklist P = true := by
  rw [goalOnBlacklist_eq_true_iff]
  have h5 : 0 < roundDouble (5 * resolution) := roundTo_pos 53 (by norm_num) _ (by linarith)
  refine ⟨P, hP, ?_, ?_⟩ <;> simpa [roundDouble_zero] using h5

/-- At a resolution of at most 1 the entry (5,5) does not cover (10,10). -/
lemma scenario_second_viable (resolution : ℚ) (hle : resolution ≤ 1) :
    goalOnBlacklist resolution [⟨5, 5, 0⟩] ⟨10, 10, 0⟩ = false := by
  rw [← Bool.not_eq_true, goalOnBlacklist_eq_true_iff]
  rintro ⟨P, hP, hx, -⟩
  rw [List.mem_singleton] at hP
  subst hP
  have h5 : roundDouble (5 * resolution) ≤ ((5 : ℕ) : ℚ) :=
    roundDouble_le_natCast _ 5 (by norm_num) (by push_cast; linarith)
  norm_num [roundDouble_five] at hx h5
  linarith

/-- At resolution 2 the entry (5,5) covers (10,10). -/
lemma scenario_second_blacklisted :
    goalOnBlacklist 2 [⟨5, 5, 0⟩] ⟨10, 10, 0⟩ = true := by
  rw [goalOnBlacklist_eq_true_iff]
  refine ⟨⟨5, 5, 0⟩, by simp, ?_, ?_⟩ <;> norm_num [roundDouble_five, roundDouble_ten]

/-- C4: a point reported blacklisted over `L` is reported blacklisted over `L`
followed by any later additions `L'`. -/
theorem goalOnBlacklist_monotone (resolution : ℚ) (L L' : List Point) (Q : Point)
    (h : goalOnBlacklist resolution L Q = true) :
    goalOnBlacklist resolution (L ++ L') Q = true :=
  goalOnBlacklist_append_left resolution L L' Q h

/-- C4 at a blacklist holding (5,5), the point (7,3) and two later additions. -/
theorem goalOnBlacklist_monotone_witness :
    goalOnBlacklist 1 [⟨5, 5, 0⟩] ⟨7, 3, 0⟩ = true ∧
      goalOnBlacklist 1 ([⟨5, 5, 0⟩] ++ [⟨40, 40, 0⟩, ⟨7, 3, 0⟩]) ⟨7, 3, 0⟩ = true :=
  have hneg : roundDouble (-2) = -2 := by
    have h := roundDouble_intCast (-2) (by norm_num)
    simpa using h
  have h : goalOnBlacklist 1 [⟨5, 5, 0⟩] ⟨7, 3, 0⟩ = true := by
    rw [goalOnBlacklist_eq_true_iff]
    refine ⟨⟨5, 5, 0⟩, by simp, ?_, ?_⟩
    · norm_num [roundDouble_two, roundDouble_five]
    · norm_num [roundDouble_five, hneg]
  ⟨h, goalOnBlacklist_monotone 1 [⟨5, 5, 0⟩] [⟨40, 40, 0⟩, ⟨7, 3, 0⟩] ⟨7, 3, 0⟩ h⟩

/-- The frontier found by the scan splits the list: everything before it is
blacklisted and it is not. -/
lemma find_viable_split (resolution : ℚ) (blacklist : List Point) (fs : List Frontier)
    (hex : ∃ f ∈ fs, goalOnBlacklist resolution blacklist f.centroid = false) :
    ∃ pre f post, fs = pre ++ f :: post ∧
      (∀ g ∈ pre, goalOnBlacklist resolution blacklist g.centroid = true) ∧
      goalOnBlacklist resolution blacklist f.centroid = false ∧
      fs.find? (fun f => !goalOnBlacklist resolution blacklist f.centroid) = some f := by
  induction fs with
  | nil => simp at hex
  | cons a rest ih =>
    cases ha : goalOnBlacklist resolution blacklist a.centroid with
    | false =>
      exact ⟨[], a, rest, rfl, by simp, ha, by simp [List.find?, ha]⟩
    | true =>
      have hex' : ∃ f ∈ rest, goalOnBlacklist resolution blacklist f.centroid = false := by
        obtain ⟨f, hf, hfb⟩ := hex
        rcases List.mem_cons.mp hf with rfl | hmem
        · rw [ha] at hfb; cases hfb
        · exact ⟨f, hmem, hfb⟩
      obtain ⟨pre, f, post, hsplit, hpre, hf, hfind⟩ := ih hex'
      refine ⟨a :: pre, f, post, by rw [hsplit]; rfl, ?_, hf, ?_⟩
      · intro g hg
        rcases List.mem_cons.mp hg with rfl | hmem
        · exact ha
        · exact hpre g hmem
      · simp [List.find?, ha, hfind]

lemma find_viable_none (resolution : ℚ) (blacklist : List Point) (fs : List Frontier)
    (hall : ∀ f ∈ fs, goalOnBlacklist resolution blacklist f.centroid = true) :
    fs.find? (fun f => !goalOnBlacklist resolution blacklist f.centroid) = none := by
  rw [List.find?_eq_none]
  intro f hf
  simp [hall f hf]

/-- C2: on a cost-sorted frontier list with at least one frontier whose centroid
is not blacklisted, the target of `get_frontiers` is the centroid of the first
such frontier: all frontiers before it are blacklisted and no non-blacklisted
frontier costs strictly less (whether or not the cheapest frontier is
blacklisted). For frontiers (5,5) cost 1 and (10,10) cost 2 with an empty
blacklist the target is (5,5). -/
theorem get_frontiers_first_viable :
    (∀ (env : Env) (s : Explore),
      env.frontiers.Pairwise (fun a b => a.cost ≤ b.cost) →
      (∃ f ∈ env.frontiers,
        goalOnBlacklist env.resolution s.frontier_blacklist_ f.centroid = false) →
      ∃ pre f post, env.frontiers = pre ++ f :: post ∧
        (∀ g ∈ pre, goalOnBlacklist env.resolution s.frontier_blacklist_ g.centroid = true) ∧
        goalOnBlacklist env.resolution s.frontier_blacklist_ f.centroid = false ∧
        (get_frontiers env s).target_position = some f.centroid ∧
        ∀ g ∈ env.frontiers,
          goalOnBlacklist env.resolution s.frontier_blacklist_ g.centroid = false →
          ¬ g.cost < f.cost) ∧
    (∀ (env : Env) (s : Explore) (a b : Frontier),
      env.frontiers = [a, b] → a.centroid = ⟨5, 5, 0⟩ → a.cost = 1 →
      b.centroid = ⟨10, 10, 0⟩ → b.cost = 2 → s.frontier_blacklist_ = [] →
      (get_frontiers env s).target_position = some ⟨5, 5, 0⟩) := by
  constructor
  · intro env s hsorted hex
    obtain ⟨pre, f, post, hsplit, hpre, hf, hfind⟩ :=
      find_viable_split env.resolution s.frontier_blacklist_ env.frontiers hex
    refine ⟨pre, f, post, hsplit, hpre, hf, ?_, ?_⟩
    · rw [get_frontiers_target, hfind]; rfl
    · intro g hg hgb
      rw [hsplit] at hg hsorted
      rcases List.mem_append.mp hg with hin | hin
      · rw [hpre g hin] at hgb; cases hgb
      · rcases List.mem_cons.mp hin with rfl | hpost
        · exact lt_irrefl _
        · have h2 := (List.pairwise_append.mp hsorted).2.1
          exact not_lt.mpr (List.rel_of_pairwise_cons h2 hpost)
  · intro env s a b hfs ha _ _ _ hbl
    rw [get_frontiers_target, hfs, hbl]
    simp [List.find?, goalOnBlacklist_nil, ha]

/-- C2 at the scenario frontiers: with (5,5) blacklisted, and with an empty
blacklist. -/
theorem get_frontiers_first_viable_witness :
    (∃ pre f post, (scenarioEnv 1).frontiers = pre ++ f :: post ∧
        (∀ g ∈ pre, goalOnBlacklist (scenarioEnv 1).resolution
          (scenarioState [⟨5, 5, 0⟩] none 0 false).frontier_blacklist_ g.centroid = true) ∧
        goalOnBlacklist (scenarioEnv 1).resolution
          (scenarioState [⟨5, 5, 0⟩] none 0 false).frontier_blacklist_ f.centroid = false ∧
        (get_frontiers (scenarioEnv 1)
          (scenarioState [⟨5, 5, 0⟩] none 0 false)).target_position = some f.centroid ∧
        ∀ g ∈ (scenarioEnv 1).frontiers,
          goalOnBlacklist (scenarioEnv 1).resolution
            (scenarioState [⟨5, 5, 0⟩] none 0 false).frontier_blacklist_ g.centroid = false →
          ¬ g.cost < f.cost) ∧
    (get_frontiers (scenarioEnv 1) (scenarioState [] none 0 false)).target_position
      = some ⟨5, 5, 0⟩ :=
  ⟨get_frontiers_first_viable.1 (scenarioEnv 1) (scenarioState [⟨5, 5, 0⟩] none 0 false)
      (by simp [scenarioEnv, scenarioFrontiers])
      ⟨⟨1, 2, ⟨10, 10, 0⟩, [⟨10, 10, 0⟩]⟩,
        by simp [scenarioEnv, scenarioFrontiers],
        scenario_second_viable 1 (le_refl 1)⟩,
   get_frontiers_first_viable.2 (scenarioEnv 1) (scenarioState [] none 0 false)
      ⟨1, 1, ⟨5, 5, 0⟩, [⟨5, 5, 0⟩]⟩ ⟨1, 2, ⟨10, 10, 0⟩, [⟨10, 10, 0⟩]⟩
      rfl rfl rfl rfl rfl rfl⟩

/-- C3: when the frontier list is empty or every frontier's centroid is
blacklisted, `get_frontiers` returns with no target position; the function is
total, so this is an ordinary return. -/
theorem get_frontiers_none (env : Env) (s : Explore)
    (h : env.frontiers = [] ∨
      ∀ f ∈ env.frontiers,
        goalOnBlacklist env.resolution s.frontier_blacklist_ f.centroid = true) :
    (get_frontiers env s).target_position = none := by
  rw [get_frontiers_target]
  rcases h with h | h
  · rw [h]; rfl
  · rw [find_viable_none _ _ _ h]; rfl

/-- C3 at the scenario frontiers with both centroids blacklisted. -/
theorem get_frontiers_none_witness :
    (get_frontiers (scenarioEnv 1)
        (scenarioState [⟨5, 5, 0⟩, ⟨10, 10, 0⟩] none 0 false)).target_position = none :=
  get_frontiers_none (scenarioEnv 1) (scenarioState [⟨5, 5, 0⟩, ⟨10, 10, 0⟩] none 0 false)
    (Or.inr (by
      intro f hf
      simp only [scenarioEnv, scenarioFrontiers, List.mem_cons, List.mem_singleton,
        List.not_mem_nil, or_false] at hf
      rcases hf with rfl | rfl
      · exact goalOnBlacklist_self 1 one_pos ⟨5, 5, 0⟩ _ (by simp [scenarioState])
      · exact goalOnBlacklist_self 1 one_pos ⟨10, 10, 0⟩ _ (by simp [scenarioState])))

/-- C5 (as amended): for frontiers (5,5) and (10,10) and a blacklist holding
exactly (5,5), at every resolution `0 < res ≤ 1` the target of `get_frontiers`
is (10,10). -/
theorem get_frontiers_scenario_second (env : Env) (s : Explore) (a b : Frontier)
    (hfs : env.frontiers = [a, b]) (ha : a.centroid = ⟨5, 5, 0⟩)
    (hb : b.centroid = ⟨10, 10, 0⟩) (hbl : s.frontier_blacklist_ = [⟨5, 5, 0⟩])
    (hpos : 0 < env.resolution) (hle : env.resolution ≤ 1) :
    (get_frontiers env s).target_position = some ⟨10, 10, 0⟩ := by
  have h1 : goalOnBlacklist env.resolution [⟨5, 5, 0⟩] ⟨5, 5, 0⟩ = true :=
    goalOnBlacklist_self env.resolution hpos ⟨5, 5, 0⟩ _ (by simp)
  have h2 : goalOnBlacklist env.resolution [⟨5, 5, 0⟩] ⟨10, 10, 0⟩ = false :=
    scenario_second_viable env.resolution hle
  rw [get_frontiers_target, hfs, hbl]
  simp [List.find?, ha, hb, h1, h2]

/-- The amended C5 at resolution 1/16. -/
theorem get_frontiers_scenario_second_witness :
    (get_frontiers (scenarioEnv (1 / 16))
      (scenarioState [⟨5, 5, 0⟩] none 0 false)).target_position = some ⟨10, 10, 0⟩ :=
  get_frontiers_scenario_second (scenarioEnv (1 / 16)) (scenarioState [⟨5, 5, 0⟩] none 0 false)
    ⟨1, 1, ⟨5, 5, 0⟩, [⟨5, 5, 0⟩]⟩ ⟨1, 2, ⟨10, 10, 0⟩, [⟨10, 10, 0⟩]⟩
    rfl rfl rfl rfl (by norm_num [scenarioEnv]) (by norm_num [scenarioEnv])

/-- C5 fails as stated: at the positive resolution 2 the tolerance square of the
entry (5,5) also covers (10,10), and no target is chosen. -/
theorem get_frontiers_scenario_second_counterexample :
    (0 : ℚ) < 2 ∧
    goalOnBlacklist 2 [⟨5, 5, 0⟩] ⟨5, 5, 0⟩ = true ∧
    (get_frontiers (scenarioEnv 2)
      (scenarioState [⟨5, 5, 0⟩] none 0 false)).target_position = none ∧
    (get_frontiers (scenarioEnv 2)
      (scenarioState [⟨5, 5, 0⟩] none 0 false)).target_position ≠ some ⟨10, 10, 0⟩ := by
  have h1 : goalOnBlacklist 2 [⟨5, 5, 0⟩] ⟨5, 5, 0⟩ = true :=
    goalOnBlacklist_self 2 (by norm_num) ⟨5, 5, 0⟩ _ (by simp)
  have h : (get_frontiers (scenarioEnv 2)
      (scenarioState [⟨5, 5, 0⟩] none 0 false)).target_position = none := by
    rw [get_frontiers_target]
    simp [scenarioEnv, scenarioState, scenarioFrontiers, List.find?, h1,
      scenario_second_blacklisted]
  refine ⟨by norm_num, h1, h, ?_⟩
  rw [h]
  exact fun hc => Option.noConfusion hc

lemma runTicks_blacklist (s : Explore) (envs : List Env) :
    (runTicks s envs).frontier_blacklist_ = s.frontier_blacklist_ := by
  induction envs generalizing s with
  | nil => rfl
  | cons env rest ih =>
    show (runTicks (get_frontiers env s).state rest).frontier_blacklist_ = _
    rw [ih, get_frontiers_blacklist]

/-- C7: after `goalOnBlacklist`, after `visualizeFrontiers`, after
`get_frontiers` and after any sequence of ticks, the blacklist starts with the
entries it had before, unaltered and in the same order. -/
theorem blacklist_entries_retained (env : Env) (s : Explore) (goal : Point)
    (frontiers : List Frontier) (envs : List Env) :
    (∃ added, (Explore.goalOnBlacklist env s goal).1.frontier_blacklist_
      = s.frontier_blacklist_ ++ added) ∧
    (∃ added, (visualizeFrontiers env s frontiers).1.frontier_blacklist_
      = s.frontier_blacklist_ ++ added) ∧
    (∃ added, (get_frontiers env s).state.frontier_blacklist_
      = s.frontier_blacklist_ ++ added) ∧
    (∃ added, (runTicks s envs).frontier_blacklist_ = s.frontier_blacklist_ ++ added) :=
  ⟨⟨[], by simp [Explore.goalOnBlacklist]⟩,
   ⟨[], by simp [visualizeFrontiers]⟩,
   ⟨[], by simp [get_frontiers_blacklist]⟩,
   ⟨[], by simp [runTicks_blacklist]⟩⟩

/-! ## The marker array -/

lemma intOfSize_of_lt (n : Nat) (h : n < 2 ^ 31) : intOfSize n = (n : Int) := by
  unfold intOfSize
  rw [Nat.mod_eq_of_lt (by omega)]
  push_cast
  ring

lemma intOfSize_two_pow : intOfSize (2 ^ 31) = -2147483648 := by
  unfold intOfSize
  norm_num

lemma addMarker_rebase (resolution : ℚ) (blacklist : List Point) (size : Nat) (m : Marker)
    (b a b' a' : ℚ) (i j : Nat) (x y : ℚ) (f g : Frontier) :
    addMarker resolution blacklist size
        (addMarker resolution blacklist size m b a i x f) b' a' j y g
      = addMarker resolution blacklist size m b' a' j y g := by
  cases m
  unfold addMarker
  rfl

lemma addMarkers_rebase (resolution : ℚ) (blacklist : List Point) (size : Nat) (m : Marker)
    (b a b' a' : ℚ) (i : Nat) (x : ℚ) (f : Frontier) (fs : List Frontier) (j : Nat) (y : ℚ) :
    addMarkers resolution blacklist size
        (addMarker resolution blacklist size m b a i x f) b' a' j y fs
      = addMarkers resolution blacklist size m b' a' j y fs := by
  induction fs generalizing j y with
  | nil => simp only [addMarkers]
  | cons g rest ih => simp only [addMarkers, addMarker_rebase, ih]

lemma addStep_eq (resolution : ℚ) (blacklist : List Point) (size : Nat) (st : VisLoop)
    (f : Frontier) :
    (addStep resolution blacklist size st f).markers
        = st.markers ++
          [addMarker resolution blacklist size st.m st.my_color.b st.my_color.a st.id
            st.frontier_id f] ∧
      (addStep resolution blacklist size st f).m
        = addMarker resolution blacklist size st.m st.my_color.b st.my_color.a st.id
            st.frontier_id f ∧
      (addStep resolution blacklist size st f).id = st.id + 1 ∧
      (addStep resolution blacklist size st f).frontier_id
        = roundDouble (st.frontier_id + 1) ∧
      (addStep resolution blacklist size st f).my_color.b = st.my_color.b ∧
      (addStep resolution blacklist size st f).my_color.a = st.my_color.a := by
  unfold addStep addMarker
  cases h : goalOnBlacklist resolution blacklist f.centroid <;> simp

/-- The first loop in closed form. -/
lemma foldl_addStep (resolution : ℚ) (blacklist : List Point) (size : Nat)
    (fs : List Frontier) (st : VisLoop) :
    (fs.foldl (addStep resolution blacklist size) st).markers
        = st.markers ++ addMarkers resolution blacklist size st.m st.my_color.b st.my_color.a
            st.id st.frontier_id fs ∧
      (fs.foldl (addStep resolution blacklist size) st).id = st.id + fs.length ∧
      (fs.foldl (addStep resolution blacklist size) st).m
        = ((addMarkers resolution blacklist size st.m st.my_color.b st.my_color.a
            st.id st.frontier_id fs).getLast?).getD st.m := by
  induction fs generalizing st with
  | nil => simp [addMarkers]
  | cons f rest ih =>
    obtain ⟨hm, hmm, hid, hfid, hb, ha⟩ := addStep_eq resolution blacklist size st f
    obtain ⟨h1, h2, h3⟩ := ih (addStep resolution blacklist size st f)
    simp only [List.foldl_cons]
    rw [h1, h2, h3, hm, hmm, hid, hfid, hb, ha, addMarkers_rebase]
    refine ⟨by simp [addMarkers], by simp only [List.length_cons]; omega, ?_⟩
    cases hrest : addMarkers resolution blacklist size st.m st.my_color.b st.my_color.a
        (st.id + 1) (roundDouble (st.frontier_id + 1)) rest with
    | nil => simp [addMarkers, hrest]
    | cons x xs =>
      simp only [addMarkers, hrest, List.getLast?_cons_cons]
      rw [List.getLast?_eq_getLast (x :: xs) (by simp)]
      simp only [Option.getD_some]

/-- The second loop in closed form. -/
lemma deleteLoop_eq (m : Marker) (last : Nat) (id : Nat) (markers : List Marker) :
    deleteLoop m last id markers
      = markers ++ (List.range' id (last - id)).map (fun i => { m with id := intOfSize i }) := by
  generalize h : last - id = k
  induction k generalizing id markers with
  | zero =>
    rw [deleteLoop, if_neg (by omega)]
    simp
  | succ k ih =>
    rw [deleteLoop, if_pos (by omega), ih (id + 1) _ (by omega)]
    simp [List.range'_succ]

lemma addMarkers_length (resolution : ℚ) (blacklist : List Point) (size : Nat) (m : Marker)
    (b a : ℚ) (fs : List Frontier) (id : Nat) (fid : ℚ) :
    (addMarkers resolution blacklist size m b a id fid fs).length = fs.length := by
  induction fs generalizing id fid with
  | nil => simp only [addMarkers, List.length_nil]
  | cons f rest ih => simp only [addMarkers, List.length_cons, ih]

/-- The value of the counter `frontier_id` after `i` increments from `x`. -/
lemma iterate_increment (i : Nat) (hi : i ≤ 2 ^ 53) :
    (fun x : ℚ => roundDouble (x + 1))^[i] 0 = (i : ℚ) := by
  induction i with
  | zero => simp
  | succ k ih =>
    rw [Function.iterate_succ_apply', ih (by omega)]
    have := roundDouble_natCast (k + 1) hi
    push_cast at this ⊢
    exact this

lemma addMarkers_getElem? (resolution : ℚ) (blacklist : List Point) (size : Nat) (m : Marker)
    (b a : ℚ) (fs : List Frontier) (id : Nat) (fid : ℚ) (i : Nat) :
    (addMarkers resolution blacklist size m b a id fid fs)[i]?
      = fs[i]?.map (fun f => addMarker resolution blacklist size m b a (id + i)
          ((fun x : ℚ => roundDouble (x + 1))^[i] fid) f) := by
  induction fs generalizing id fid i with
  | nil => simp only [addMarkers, List.getElem?_nil, Option.map_none']
  | cons f rest ih =>
    cases i with
    | zero =>
      simp only [addMarkers, List.getElem?_cons_zero, Option.map_some', Nat.add_zero,
        Function.iterate_zero, id_eq]
    | succ k =>
      simp only [addMarkers, List.getElem?_cons_succ, ih, Function.iterate_succ_apply]
      have h1 : id + 1 + k = id + (k + 1) := by omega
      rw [h1]

/-- The published array and the new state in closed form. -/
lemma visualizeFrontiers_eq (env : Env) (s : Explore) (fs : List Frontier) :
    (visualizeFrontiers env s fs).2
        = addMarkers env.resolution s.frontier_blacklist_ fs.length (marker0 env) 1 1 0 0 fs ++
          (List.range' fs.length (s.last_markers_count_ - fs.length)).map
            (fun i =>
              { ((addMarkers env.resolution s.frontier_blacklist_ fs.length (marker0 env)
                    1 1 0 0 fs).getLast?.getD (marker0 env)) with
                action := MarkerAction.DELETE, id := intOfSize i }) ∧
      (visualizeFrontiers env s fs).1 = { s with last_markers_count_ := fs.length } := by
  obtain ⟨h1, h2, h3⟩ := foldl_addStep env.resolution s.frontier_blacklist_ fs.length fs
    { m := marker0 env, my_color := my_color0, markers := [], id := 0, frontier_id := 0 }
  simp only [my_color0, List.nil_append, Nat.zero_add] at h1 h2 h3
  unfold visualizeFrontiers
  simp only [my_color0, h1, h2, h3, deleteLoop_eq, addMarkers_length, and_self]

lemma visualizeFrontiers_count (env : Env) (s : Explore) (fs : List Frontier) :
    (visualizeFrontiers env s fs).1 = { s with last_markers_count_ := fs.length } :=
  (visualizeFrontiers_eq env s fs).2

lemma addMarkers_action_id (resolution : ℚ) (blacklist : List Point) (size : Nat) (m : Marker)
    (b a : ℚ) (fs : List Frontier) (id : Nat) (fid : ℚ) :
    (addMarkers resolution blacklist size m b a id fid fs).map (fun x => (x.action, x.id))
      = (List.range' id fs.length).map (fun i => (m.action, intOfSize i)) := by
  induction fs generalizing id fid with
  | nil => simp only [addMarkers, List.map_nil, List.length_nil, List.range'_zero]
  | cons f rest ih =>
    simp only [addMarkers, List.map_cons, List.length_cons, List.range'_succ, ih]
    unfold addMarker
    rfl

lemma addMarkers_points (resolution : ℚ) (blacklist : List Point) (size : Nat) (m : Marker)
    (b a : ℚ) (fs : List Frontier) (id : Nat) (fid : ℚ) :
    (addMarkers resolution blacklist size m b a id fid fs).map Marker.points
      = fs.map Frontier.points := by
  induction fs generalizing id fid with
  | nil => simp only [addMarkers, List.map_nil]
  | cons f rest ih =>
    simp only [addMarkers, List.map_cons, ih]
    unfold addMarker
    rfl

/-- Actions and ids of the published array, the ids still under `intOfSize`. -/
lemma visualizeFrontiers_action_id (env : Env) (s : Explore) (fs : List Frontier) :
    (visualizeFrontiers env s fs).2.map (fun x => (x.action, x.id))
      = (List.range' 0 fs.length).map (fun i => (MarkerAction.ADD, intOfSize i)) ++
        (List.range' fs.length (s.last_markers_count_ - fs.length)).map
          (fun i => (MarkerAction.DELETE, intOfSize i)) := by
  rw [(visualizeFrontiers_eq env s fs).1, List.map_append, addMarkers_action_id,
    List.map_map]
  rfl

/-- C8 (as amended): for a frontier list of length `n ≤ 2^31` and a previous
marker count `k ≤ 2^31`, `visualizeFrontiers` publishes `n` ADD markers with ids
`0..n-1` in list order, the i-th carrying the i-th frontier's points, followed
by `k - n` (zero when `k ≤ n`) DELETE markers with ids `n..k-1`; no id occurs
twice and the stored marker count becomes `n`. -/
theorem visualizeFrontiers_markers (env : Env) (s : Explore) (fs : List Frontier)
    (hn : fs.length ≤ 2 ^ 31) (hk : s.last_markers_count_ ≤ 2 ^ 31) :
    (visualizeFrontiers env s fs).2.map (fun x => (x.action, x.id))
        = (List.range fs.length).map (fun i : Nat => (MarkerAction.ADD, (i : Int))) ++
          (List.range' fs.length (s.last_markers_count_ - fs.length)).map
            (fun i : Nat => (MarkerAction.DELETE, (i : Int))) ∧
      ((visualizeFrontiers env s fs).2.take fs.length).map Marker.points
        = fs.map Frontier.points ∧
      ((visualizeFrontiers env s fs).2.map Marker.id).Nodup ∧
      (visualizeFrontiers env s fs).1.last_markers_count_ = fs.length := by
  have hact := visualizeFrontiers_action_id env s fs
  have hadd : (List.range' 0 fs.length).map (fun i => (MarkerAction.ADD, intOfSize i))
      = (List.range fs.length).map (fun i : Nat => (MarkerAction.ADD, (i : Int))) := by
    rw [List.range_eq_range']
    apply List.map_congr_left
    intro i hi
    rw [List.mem_range'_1] at hi
    rw [intOfSize_of_lt i (by omega)]
  have hdel : (List.range' fs.length (s.last_markers_count_ - fs.length)).map
        (fun i => (MarkerAction.DELETE, intOfSize i))
      = (List.range' fs.length (s.last_markers_count_ - fs.length)).map
        (fun i : Nat => (MarkerAction.DELETE, (i : Int))) := by
    apply List.map_congr_left
    intro i hi
    rw [List.mem_range'_1] at hi
    rw [intOfSize_of_lt i (by omega)]
  rw [hadd, hdel] at hact
  refine ⟨hact, ?_, ?_, ?_⟩
  · rw [(visualizeFrontiers_eq env s fs).1, List.take_left' (addMarkers_length _ _ _ _ _ _ _ _ _),
      addMarkers_points]
  · have hid : (visualizeFrontiers env s fs).2.map Marker.id
        = ((visualizeFrontiers env s fs).2.map (fun x => (x.action, x.id))).map Prod.snd := by
      rw [List.map_map]; rfl
    rw [hid, hact, List.range_eq_range', List.map_append, List.map_map, List.map_map]
    have hfun : (Prod.snd ∘ fun i : Nat => (MarkerAction.ADD, (i : Int)))
        = (Prod.snd ∘ fun i : Nat => (MarkerAction.DELETE, (i : Int))) := rfl
    rw [hfun, ← List.map_append]
    have happ : List.range' 0 fs.length ++
        List.range' fs.length (s.last_markers_count_ - fs.length)
        = List.range' 0 (s.last_markers_count_ - fs.length + fs.length) := by
      have := List.range'_append_1 0 fs.length (s.last_markers_count_ - fs.length)
      simpa using this
    rw [happ]
    refine List.Nodup.map ?_ (List.nodup_range' _ _)
    intro x y hxy
    simpa using hxy
  · rw [(visualizeFrontiers_eq env s fs).2]

lemma map_range'_getElem? {α : Type} (f : Nat → α) (k i : Nat) (h : i < k) :
    ((List.range' 0 k).map f)[i]? = some (f i) := by
  rw [List.getElem?_map, List.getElem?_range' 0 1 h]
  simp

/-- With no frontiers the published array is the run of DELETE markers. -/
lemma visualizeFrontiers_nil_action_id (env : Env) (s : Explore) :
    (visualizeFrontiers env s []).2.map (fun x => (x.action, x.id))
      = (List.range' 0 s.last_markers_count_).map
          (fun i => (MarkerAction.DELETE, intOfSize i)) := by
  rw [visualizeFrontiers_action_id]
  simp only [List.length_nil, List.range'_zero, List.map_nil, List.nil_append, Nat.sub_zero]

/-- The amended C8 at the scenario frontiers with five markers drawn before. -/
theorem visualizeFrontiers_markers_witness :
    (visualizeFrontiers (scenarioEnv 1) (scenarioState [⟨5, 5, 0⟩] none 5 true)
          scenarioFrontiers).2.map (fun x => (x.action, x.id))
        = (List.range scenarioFrontiers.length).map
            (fun i : Nat => (MarkerAction.ADD, (i : Int))) ++
          (List.range' scenarioFrontiers.length
            ((scenarioState [⟨5, 5, 0⟩] none 5 true).last_markers_count_ -
              scenarioFrontiers.length)).map
            (fun i : Nat => (MarkerAction.DELETE, (i : Int))) ∧
      ((visualizeFrontiers (scenarioEnv 1) (scenarioState [⟨5, 5, 0⟩] none 5 true)
          scenarioFrontiers).2.take scenarioFrontiers.length).map Marker.points
        = scenarioFrontiers.map Frontier.points ∧
      ((visualizeFrontiers (scenarioEnv 1) (scenarioState [⟨5, 5, 0⟩] none 5 true)
          scenarioFrontiers).2.map Marker.id).Nodup ∧
      (visualizeFrontiers (scenarioEnv 1) (scenarioState [⟨5, 5, 0⟩] none 5 true)
          scenarioFrontiers).1.last_markers_count_ = scenarioFrontiers.length :=
  visualizeFrontiers_markers (scenarioEnv 1) (scenarioState [⟨5, 5, 0⟩] none 5 true)
    scenarioFrontiers (by simp [scenarioFrontiers]) (by simp [scenarioState])

/-- C8 fails as stated: with no frontiers and a previous marker count of
`2^31 + 1`, the DELETE marker at position `2^31` carries the id `-2^31`
(the conversion `int(id)` wraps), not `2^31`. -/
theorem visualizeFrontiers_markers_counterexample :
    ((visualizeFrontiers (scenarioEnv 1) (scenarioState [] none 2147483649 true)
        []).2.map (fun x => (x.action, x.id)))[2147483648]?
      = some (MarkerAction.DELETE, -2147483648) ∧
    (visualizeFrontiers (scenarioEnv 1) (scenarioState [] none 2147483649 true)
        []).2.map (fun x => (x.action, x.id))
      ≠ (List.range 0).map (fun i : Nat => (MarkerAction.ADD, (i : Int))) ++
        (List.range' 0 (2147483649 - 0)).map
          (fun i : Nat => (MarkerAction.DELETE, (i : Int))) := by
  have hcount : (scenarioState [] none 2147483649 true).last_markers_count_ = 2147483649 := rfl
  have hlt : 2147483648 < 2147483649 := by norm_num
  have hpow : (2147483648 : Nat) = 2 ^ 31 := by norm_num
  have hid : intOfSize 2147483648 = -2147483648 := by rw [hpow]; exact intOfSize_two_pow
  have h1 : ((visualizeFrontiers (scenarioEnv 1) (scenarioState [] none 2147483649 true)
        []).2.map (fun x => (x.action, x.id)))[2147483648]?
      = some (MarkerAction.DELETE, -2147483648) := by
    rw [visualizeFrontiers_nil_action_id, hcount, map_range'_getElem? _ _ _ hlt, hid]
  refine ⟨h1, ?_⟩
  intro heq
  rw [heq, List.range_zero, List.map_nil, List.nil_append, Nat.sub_zero,
    map_range'_getElem? _ _ _ hlt] at h1
  have h2 := congrArg Prod.snd (Option.some.inj h1)
  simp only at h2
  omega

/-- C6 fails as stated: the selection returns (5,5), which is far from the
active goal (0,0), yet the goal state still holds (0,0) afterwards and no goal is
sent. -/
theorem get_frontiers_commit_counterexample :
    (get_frontiers (scenarioEnv 1)
      (scenarioState [] (some ⟨0, 0, 0⟩) 0 false)).target_position = some ⟨5, 5, 0⟩ ∧
    pointEq ⟨5, 5, 0⟩ ⟨0, 0, 0⟩ = false ∧
    (get_frontiers (scenarioEnv 1)
      (scenarioState [] (some ⟨0, 0, 0⟩) 0 false)).state.prev_goal_ = some ⟨0, 0, 0⟩ ∧
    (get_frontiers (scenarioEnv 1)
      (scenarioState [] (some ⟨0, 0, 0⟩) 0 false)).effects = [] := by
  refine ⟨?_, ?_, ?_, ?_⟩
  · rw [get_frontiers_target]
    simp [scenarioEnv, scenarioState, scenarioFrontiers, List.find?, goalOnBlacklist]
  · exact pointEq_far
  · rw [get_frontiers_eq]; rfl
  · rw [get_frontiers_eq]; rfl

/-- C6 (as amended): on every tick on which the selection returns a candidate
`f` (the first frontier of the list whose centroid is not blacklisted), whether
or not it is within positional-equality tolerance of the current goal,
`get_frontiers` copies the centroid of `f` into the local `target_position` and
does nothing else with it: every member other than the marker count keeps its
value, so the goal state is not replaced, and the only outward call is the
marker publication when visualisation is on, so nothing is sent to a goal
executor. -/
theorem get_frontiers_keeps_goal (env : Env) (s : Explore) (pre post : List Frontier)
    (f : Frontier) (hsplit : env.frontiers = pre ++ f :: post)
    (hpre : ∀ g ∈ pre,
      goalOnBlacklist env.resolution s.frontier_blacklist_ g.centroid = true)
    (hf : goalOnBlacklist env.resolution s.frontier_blacklist_ f.centroid = false) :
    (get_frontiers env s).target_position = some f.centroid ∧
    (get_frontiers env s).state
      = { s with
          last_markers_count_ :=
            if s.visualize_ then env.frontiers.length else s.last_markers_count_ } ∧
    (get_frontiers env s).state.prev_goal_ = s.prev_goal_ ∧
    (get_frontiers env s).effects
      = (if s.visualize_ then [Effect.publish (visualizeFrontiers env s env.frontiers).2]
          else []) ∧
    ∀ p, Effect.sendGoal p ∉ (get_frontiers env s).effects := by
  have hfind : env.frontiers.find?
      (fun f => !goalOnBlacklist env.resolution s.frontier_blacklist_ f.centroid) = some f := by
    rw [hsplit, List.find?_append]
    have hnone : pre.find?
        (fun f => !goalOnBlacklist env.resolution s.frontier_blacklist_ f.centroid) = none :=
      find_viable_none _ _ _ hpre
    rw [hnone]
    simp [List.find?, hf]
  have hstate : (get_frontiers env s).state
      = { s with
          last_markers_count_ :=
            if s.visualize_ then env.frontiers.length else s.last_markers_count_ } := by
    rw [get_frontiers_eq]
    show (if s.visualize_ = true then (visualizeFrontiers env s env.frontiers).1 else s) = _
    by_cases hv : s.visualize_ = true
    · rw [if_pos hv, if_pos hv, visualizeFrontiers_count]
    · rw [if_neg hv, if_neg hv]
  have heff : (get_frontiers env s).effects
      = (if s.visualize_ then [Effect.publish (visualizeFrontiers env s env.frontiers).2]
          else []) := by
    rw [get_frontiers_eq]
  refine ⟨?_, hstate, by rw [hstate], heff, ?_⟩
  · rw [get_frontiers_target, hfind]
    rfl
  · intro p hp
    rw [heff] at hp
    by_cases hv : s.visualize_ = true
    · simp [hv] at hp
    · simp [hv] at hp

/-- The amended C6 at the scenario frontiers with (5,5) blacklisted, the goal
(0,0) and visualisation on: the target is (10,10), the marker count becomes 2
and the goal is still (0,0). -/
theorem get_frontiers_keeps_goal_witness :
    (get_frontiers (scenarioEnv 1)
        (scenarioState [⟨5, 5, 0⟩] (some ⟨0, 0, 0⟩) 7 true)).target_position
      = some (⟨1, 2, ⟨10, 10, 0⟩, [⟨10, 10, 0⟩]⟩ : Frontier).centroid ∧
    (get_frontiers (scenarioEnv 1)
        (scenarioState [⟨5, 5, 0⟩] (some ⟨0, 0, 0⟩) 7 true)).state
      = { scenarioState [⟨5, 5, 0⟩] (some ⟨0, 0, 0⟩) 7 true with
          last_markers_count_ :=
            if (scenarioState [⟨5, 5, 0⟩] (some ⟨0, 0, 0⟩) 7 true).visualize_
            then (scenarioEnv 1).frontiers.length
            else (scenarioState [⟨5, 5, 0⟩] (some ⟨0, 0, 0⟩) 7 true).last_markers_count_ } ∧
    (get_frontiers (scenarioEnv 1)
        (scenarioState [⟨5, 5, 0⟩] (some ⟨0, 0, 0⟩) 7 true)).state.prev_goal_
      = (scenarioState [⟨5, 5, 0⟩] (some ⟨0, 0, 0⟩) 7 true).prev_goal_ ∧
    (get_frontiers (scenarioEnv 1)
        (scenarioState [⟨5, 5, 0⟩] (some ⟨0, 0, 0⟩) 7 true)).effects
      = (if (scenarioState [⟨5, 5, 0⟩] (some ⟨0, 0, 0⟩) 7 true).visualize_
          then [Effect.publish (visualizeFrontiers (scenarioEnv 1)
            (scenarioState [⟨5, 5, 0⟩] (some ⟨0, 0, 0⟩) 7 true) (scenarioEnv 1).frontiers).2]
          else []) ∧
    ∀ p, Effect.sendGoal p ∉ (get_frontiers (scenarioEnv 1)
        (scenarioState [⟨5, 5, 0⟩] (some ⟨0, 0, 0⟩) 7 true)).effects :=
  get_frontiers_keeps_goal (scenarioEnv 1) (scenarioState [⟨5, 5, 0⟩] (some ⟨0, 0, 0⟩) 7 true)
    [⟨1, 1, ⟨5, 5, 0⟩, [⟨5, 5, 0⟩]⟩] [] ⟨1, 2, ⟨10, 10, 0⟩, [⟨10, 10, 0⟩]⟩ rfl
    (by
      intro g hg
      rw [List.mem_singleton] at hg
      subst hg
      exact goalOnBlacklist_self 1 one_pos ⟨5, 5, 0⟩ _ (by simp [scenarioState]))
    (scenario_second_viable 1 (le_refl 1))

/-! ## Colours -/

lemma roundFloat_zero : roundFloat 0 = 0 := roundTo_zero 24

lemma roundFloat_one : roundFloat 1 = 1 := by
  have h := roundTo_eq_of_near 24 1 0 (2 ^ 23) (by norm_num) (by norm_num) (by norm_num)
  unfold roundFloat
  rw [h]
  norm_num

/-- The colour of the marker drawn for the frontier at index `i`. -/
lemma visualizeFrontiers_color_at (env : Env) (s : Explore) (fs : List Frontier) (i : Nat)
    (f : Frontier) (hf : fs[i]? = some f) (hn : fs.length < 2 ^ 53) :
    ((visualizeFrontiers env s fs).2[i]?).map Marker.color
      = some (if goalOnBlacklist env.resolution s.frontier_blacklist_ f.centroid then red
          else { r := roundFloat (roundDouble ((i : ℚ) / ((fs.length + 1 : Nat) : ℚ)))
                 g := roundFloat (roundDouble
                   (1 - roundDouble ((i : ℚ) / ((fs.length + 1 : Nat) : ℚ))))
                 b := 1
                 a := 1 }) := by
  have hi : i < fs.length := by
    rcases Nat.lt_or_ge i fs.length with h | h
    · exact h
    · rw [List.getElem?_eq_none h] at hf; cases hf
  rw [(visualizeFrontiers_eq env s fs).1,
    List.getElem?_append_left (by rw [addMarkers_length]; exact hi),
    addMarkers_getElem?, hf, iterate_increment i (by omega)]
  simp only [Option.map_some', Nat.zero_add]
  unfold addMarker
  rw [roundDouble_natCast (fs.length + 1) (by omega)]

/-- With an empty blacklist the blue component of every published marker is
not 0. -/
lemma visualizeFrontiers_b_ne_zero (env : Env) (s : Explore) (fs : List Frontier)
    (hbl : s.frontier_blacklist_ = []) :
    ∀ m ∈ (visualizeFrontiers env s fs).2, m.color.b ≠ 0 := by
  have hadd : ∀ m ∈ addMarkers env.resolution s.frontier_blacklist_ fs.length (marker0 env)
      1 1 0 0 fs, m.color.b ≠ 0 := by
    intro m hm
    obtain ⟨i, hlt, hget⟩ := List.getElem_of_mem hm
    rw [addMarkers_length] at hlt
    have h2 := addMarkers_getElem? env.resolution s.frontier_blacklist_ fs.length
      (marker0 env) 1 1 fs 0 0 i
    rw [List.getElem?_eq_getElem (by rw [addMarkers_length]; exact hlt), hget,
      List.getElem?_eq_getElem hlt] at h2
    simp only [Option.map_some', Option.some.injEq] at h2
    rw [h2, hbl]
    unfold addMarker
    simp only [goalOnBlacklist_nil, Bool.false_eq_true, if_false]
    exact one_ne_zero
  intro m hm
  rw [(visualizeFrontiers_eq env s fs).1, List.mem_append] at hm
  rcases hm with hm | hm
  · exact hadd m hm
  · rw [List.mem_map] at hm
    obtain ⟨i, -, rfl⟩ := hm
    show ((addMarkers env.resolution s.frontier_blacklist_ fs.length (marker0 env)
      1 1 0 0 fs).getLast?.getD (marker0 env)).color.b ≠ 0
    cases hl : (addMarkers env.resolution s.frontier_blacklist_ fs.length (marker0 env)
      1 1 0 0 fs).getLast? with
    | none =>
      simp only [Option.getD_none]
      unfold marker0
      norm_num
    | some x =>
      simp only [Option.getD_some]
      exact hadd x (List.mem_of_getLast?_eq_some hl)

/-- C9 (as amended): in the array `visualizeFrontiers` builds for a list of
fewer than `2^53` frontiers, the marker of a frontier whose centroid is
blacklisted is red (1, 0, 0, 1); the marker of a viable frontier at index `i` of
a list of `n` frontiers has r = the quotient `i/(n+1)` computed in `double` and
narrowed to `float`, g = `1 - i/(n+1)` computed in `double` and narrowed to
`float`, b = 1, a = 1: a gradient in the position in the list and not in the
cost; so a viable frontier gets the end r = 0, g = 1 when it is the first of
the list. -/
theorem visualizeFrontiers_colors (env : Env) (s : Explore) (fs : List Frontier) (i : Nat)
    (f : Frontier) (hf : fs[i]? = some f) (hn : fs.length < 2 ^ 53) :
    (goalOnBlacklist env.resolution s.frontier_blacklist_ f.centroid = true →
      ((visualizeFrontiers env s fs).2[i]?).map Marker.color = some red) ∧
    (goalOnBlacklist env.resolution s.frontier_blacklist_ f.centroid = false →
      ((visualizeFrontiers env s fs).2[i]?).map Marker.color
        = some { r := roundFloat (roundDouble ((i : ℚ) / ((fs.length + 1 : Nat) : ℚ)))
                 g := roundFloat (roundDouble
                   (1 - roundDouble ((i : ℚ) / ((fs.length + 1 : Nat) : ℚ))))
                 b := 1
                 a := 1 }) ∧
    (goalOnBlacklist env.resolution s.frontier_blacklist_ f.centroid = false → i = 0 →
      ((visualizeFrontiers env s fs).2[i]?).map Marker.color
        = some { r := 0, g := 1, b := 1, a := 1 }) := by
  have h := visualizeFrontiers_color_at env s fs i f hf hn
  refine ⟨?_, ?_, ?_⟩
  · intro hb
    rw [h, hb]
    rfl
  · intro hb
    rw [h, hb]
    rfl
  · intro hb hi
    rw [h, hb, hi]
    simp [roundDouble_zero, roundDouble_one, roundFloat_zero, roundFloat_one]

/-- The value of `1.0/3` in `double`. -/
lemma roundDouble_third : roundDouble (1 / 3) = 6004799503160661 / 2 ^ 54 := by
  have h := roundTo_eq_of_near 53 (1 / 3) (-2) 6004799503160661
    (by norm_num [abs_of_pos]) (by norm_num [abs_of_pos]) (by norm_num [abs_lt])
  unfold roundDouble
  rw [h]
  norm_num

/-- The value of `1 - 1.0/3` in `double`; the exact difference lies half way
between two doubles. -/
lemma roundDouble_two_thirds :
    roundDouble (1 - 6004799503160661 / 2 ^ 54) = 6004799503160662 / 2 ^ 53 := by
  have h := roundTo_eq_of_tie 53 (1 - 6004799503160661 / 2 ^ 54) (-1) 6004799503160661
    (by norm_num [abs_of_pos]) (by norm_num [abs_of_pos]) (by norm_num)
  unfold roundDouble
  rw [h]
  norm_num

lemma roundFloat_third :
    roundFloat (6004799503160661 / 2 ^ 54) = 11184811 / 2 ^ 25 := by
  have h := roundTo_eq_of_near 24 (6004799503160661 / 2 ^ 54) (-2) 11184811
    (by norm_num [abs_of_pos]) (by norm_num [abs_of_pos]) (by norm_num [abs_lt])
  unfold roundFloat
  rw [h]
  norm_num

lemma roundFloat_two_thirds :
    roundFloat (6004799503160662 / 2 ^ 53) = 11184811 / 2 ^ 24 := by
  have h := roundTo_eq_of_near 24 (6004799503160662 / 2 ^ 53) (-1) 11184811
    (by norm_num [abs_of_pos]) (by norm_num [abs_of_pos]) (by norm_num [abs_lt])
  unfold roundFloat
  rw [h]
  norm_num

/-- The colour of the second scenario marker when (5,5) is blacklisted. -/
lemma scenario_second_color :
    ((visualizeFrontiers (scenarioEnv 1) (scenarioState [⟨5, 5, 0⟩] none 0 true)
      scenarioFrontiers).2[1]?).map Marker.color
      = some { r := 11184811 / 2 ^ 25, g := 11184811 / 2 ^ 24, b := 1, a := 1 } := by
  have h := visualizeFrontiers_color_at (scenarioEnv 1)
    (scenarioState [⟨5, 5, 0⟩] none 0 true) scenarioFrontiers 1
    ⟨1, 2, ⟨10, 10, 0⟩, [⟨10, 10, 0⟩]⟩ rfl (by norm_num [scenarioFrontiers])
  have hb2 : goalOnBlacklist (scenarioEnv 1).resolution
      (scenarioState [⟨5, 5, 0⟩] none 0 true).frontier_blacklist_
      (⟨1, 2, ⟨10, 10, 0⟩, [⟨10, 10, 0⟩]⟩ : Frontier).centroid = false :=
    scenario_second_viable 1 (le_refl 1)
  rw [hb2] at h
  rw [h]
  have hq : ((1 : ℕ) : ℚ) / ((scenarioFrontiers.length + 1 : ℕ) : ℚ) = 1 / 3 := by
    norm_num [scenarioFrontiers]
  simp only [Bool.false_eq_true, if_false, hq, roundDouble_third, roundDouble_two_thirds,
    roundFloat_third, roundFloat_two_thirds]

/-- The amended C9 at the scenario with (5,5) blacklisted: the viable second
frontier gets the colour at position 1 of 2. -/
theorem visualizeFrontiers_colors_witness :
    ((visualizeFrontiers (scenarioEnv 1) (scenarioState [⟨5, 5, 0⟩] none 0 true)
      scenarioFrontiers).2[1]?).map Marker.color
      = some { r := roundFloat (roundDouble
                 (((1 : Nat) : ℚ) / ((scenarioFrontiers.length + 1 : Nat) : ℚ)))
               g := roundFloat (roundDouble
                 (1 - roundDouble (((1 : Nat) : ℚ) / ((scenarioFrontiers.length + 1 : Nat) : ℚ))))
               b := 1
               a := 1 } :=
  (visualizeFrontiers_colors (scenarioEnv 1) (scenarioState [⟨5, 5, 0⟩] none 0 true)
    scenarioFrontiers 1 ⟨1, 2, ⟨10, 10, 0⟩, [⟨10, 10, 0⟩]⟩ rfl
    (by norm_num [scenarioFrontiers])).2.1
    (scenario_second_viable 1 (le_refl 1))

/-- C9 fails as stated: with (5,5) blacklisted, the lowest-cost viable frontier
is (10,10), the second of the list, and its marker has the `float` values
r = 11184811/2^25 (about 1/3) and g = 11184811/2^24 (about 2/3), not the end
r = 0, g = 1 of the gradient. -/
theorem visualizeFrontiers_colors_counterexample :
    goalOnBlacklist 1 [⟨5, 5, 0⟩] ⟨5, 5, 0⟩ = true ∧
    goalOnBlacklist 1 [⟨5, 5, 0⟩] ⟨10, 10, 0⟩ = false ∧
    ((visualizeFrontiers (scenarioEnv 1) (scenarioState [⟨5, 5, 0⟩] none 0 true)
      scenarioFrontiers).2[1]?).map Marker.color
      = some { r := 11184811 / 2 ^ 25, g := 11184811 / 2 ^ 24, b := 1, a := 1 } ∧
    ((visualizeFrontiers (scenarioEnv 1) (scenarioState [⟨5, 5, 0⟩] none 0 true)
      scenarioFrontiers).2[1]?).map Marker.color
      ≠ some { r := 0, g := 1, b := 1, a := 1 } := by
  refine ⟨goalOnBlacklist_self 1 one_pos ⟨5, 5, 0⟩ _ (by simp),
    scenario_second_viable 1 (le_refl 1), scenario_second_color, ?_⟩
  rw [scenario_second_color]
  intro hc
  have := congrArg ColorRGBA.r (Option.some.inj hc)
  norm_num at this

/-! ## Reachable states -/

lemma find_viable_nil_blacklist (resolution : ℚ) (fs : List Frontier) :
    fs.find? (fun f => !goalOnBlacklist resolution [] f.centroid) = fs.head? := by
  cases fs with
  | nil => rfl
  | cons f rest => simp [List.find?, goalOnBlacklist_nil]

lemma tickEffects_b_ne_zero (s : Explore) (envs : List Env) (hbl : s.frontier_blacklist_ = []) :
    ∀ markers, Effect.publish markers ∈ tickEffects s envs → ∀ m ∈ markers, m.color.b ≠ 0 := by
  induction envs generalizing s with
  | nil =>
    intro markers hmem
    simp [tickEffects] at hmem
  | cons env rest ih =>
    intro markers hmem
    rw [tickEffects, List.mem_append] at hmem
    rcases hmem with hmem | hmem
    · rw [get_frontiers_eq] at hmem
      by_cases hv : s.visualize_ = true
      · simp only [hv, if_true, List.mem_singleton, Effect.publish.injEq] at hmem
        rw [hmem]
        exact visualizeFrontiers_b_ne_zero env s env.frontiers hbl
      · simp [hv] at hmem
    · exact ih (get_frontiers env s).state
        (by rw [get_frontiers_blacklist]; exact hbl) markers hmem

/-- C10: in every state reached from the constructor by any sequence of ticks
the blacklist is empty; so `goalOnBlacklist` is false for every point,
`get_frontiers` chooses the centroid of the first frontier of a non-empty list
and chooses nothing only for an empty list, and no published marker is red. -/
theorem reachable_blacklist_empty (p : Params) (envs : List Env) :
    (runTicks (Explore.construct p) envs).frontier_blacklist_ = [] ∧
    (∀ resolution Q,
      goalOnBlacklist resolution (runTicks (Explore.construct p) envs).frontier_blacklist_ Q
        = false) ∧
    (∀ env : Env,
      (get_frontiers env (runTicks (Explore.construct p) envs)).target_position
        = env.frontiers.head?.map Frontier.centroid) ∧
    (∀ env : Env,
      (get_frontiers env (runTicks (Explore.construct p) envs)).target_position = none
        ↔ env.frontiers = []) ∧
    (∀ markers, Effect.publish markers ∈ tickEffects (Explore.construct p) envs →
      ∀ m ∈ markers, m.color ≠ red) := by
  have hbl : (runTicks (Explore.construct p) envs).frontier_blacklist_ = [] := by
    rw [runTicks_blacklist]; rfl
  have htarget : ∀ env : Env,
      (get_frontiers env (runTicks (Explore.construct p) envs)).target_position
        = env.frontiers.head?.map Frontier.centroid := by
    intro env
    rw [get_frontiers_target, hbl, find_viable_nil_blacklist]
  refine ⟨hbl, ?_, htarget, ?_, ?_⟩
  · intro resolution Q
    rw [hbl]; rfl
  · intro env
    rw [htarget]
    cases env.frontiers <;> simp
  · intro markers hmem m hm hred
    have h := tickEffects_b_ne_zero (Explore.construct p) envs rfl markers hmem m hm
    rw [hred] at h
    exact h rfl

end explore
